import Mathlib

/-!
Verification of the frontend tracking engine interface declared in
`src/include/kimera-vio/frontend/Tracker.h`.  The repository ships only the
declarations of the tracker; the bodies (Tracker.cpp) and the auxiliary
headers (Frame.h, StereoFrame.h, Tracker-definitions.h) are not part of the
sources, so every operation below is modelled from the natural-language
specification and is marked as such in its doc comment.
-/

namespace VIO

/-- Modelled from the spec: Frame.h is absent from the sources.  A keypoint is
a 2D image coordinate (spec §3 "Keypoint"); the detector confidence score is
irrelevant to the verified operations and omitted. -/
structure KeypointCV where
  x : ℚ
  y : ℚ
deriving DecidableEq, Repr

/-- Modelled from the spec: Tracker-definitions.h is absent.  A landmark
identifier is a monotonically increasing integer (spec §3). -/
abbrev LandmarkId := ℕ

/-- Modelled from the spec: a keypoint match is a pair of indices
`(i_ref, j_cur)` into two keypoint sets (spec §3 "Keypoint Match"). -/
abbrev KeypointMatch := ℕ × ℕ

/-- Modelled from the spec: `KeypointMatches` is an ordered list of index
pairs (spec §3). -/
abbrev KeypointMatches := List KeypointMatch

/-- Modelled from the spec: Frame.h is absent.  A frame holds an ordered
sequence of keypoints and an index-aligned sequence of landmark ids
(spec §3 "Frame"). -/
structure Frame where
  keypoints : List KeypointCV
  landmarks : List LandmarkId
deriving DecidableEq, Repr

/-- The data-model invariant of a frame (spec §3): keypoint and landmark
arrays have equal length and no landmark id occurs twice. -/
def Frame.WF (f : Frame) : Prop :=
  f.keypoints.length = f.landmarks.length ∧ f.landmarks.Nodup

instance (f : Frame) : Decidable f.WF := by
  unfold Frame.WF; infer_instance

/-- Modelled from the spec: Tracker-definitions.h is absent.  Per-left-keypoint
stereo status of a stereo frame (spec §3 "Stereo Frame"). -/
inductive KeypointStatus where
  | VALID
  | NO_RIGHT_RECT
  | NO_DEPTH
  | FAILED_ARUN
deriving DecidableEq, Repr

/-- Modelled from the spec: StereoFrame.h is absent.  A stereo frame is a left
frame, a right frame, a per-left-keypoint status array and, for valid points,
a depth value (spec §3 "Stereo Frame"). -/
structure StereoFrame where
  left_frame : Frame
  right_frame : Frame
  right_keypoints_status : List KeypointStatus
  keypoints_depth : List ℚ
deriving DecidableEq, Repr

/-- Modelled from the spec: Tracker-definitions.h is absent.  Enumerated
outcome of a geometric estimation attempt (spec §3 "Tracking Status"). -/
inductive TrackingStatus where
  | VALID
  | INVALID
  | DISABLED
  | FEW_MATCHES
  | LOW_DISPARITY
deriving DecidableEq, Repr

/-- Modelled from the spec: VioFrontEndParams.h is absent.  The configuration
surface recognized by the verified operations (spec §6): minimum-matches
threshold, inlier-ratio threshold and disparity-degeneracy threshold. -/
structure FrontendParams where
  minNumberMatches : ℕ
  inlierRatioThreshold : ℚ
  disparityThreshold : ℚ
deriving DecidableEq, Repr

/-- Modelled from the spec: gtsam's Pose3 is an external dependency.  A rigid
pose is a 3x3 rotation entry table plus a translation vector; the verified
claims only compare poses for equality, so no group structure is needed. -/
structure Pose3 where
  rot : Fin 3 → Fin 3 → ℚ
  trans : Fin 3 → ℚ

/-- The identity pose, returned when no model is fitted. -/
def Pose3.identity : Pose3 :=
  ⟨fun i j => if i = j then 1 else 0, fun _ => 0⟩

/-- Modelled from the spec: the robust sample-consensus solver is an external
capability (spec §6).  Its outcome is a success flag, a fitted pose and the
supporting inlier indices (indices into the match list). -/
structure RansacResult where
  success : Bool
  pose : Pose3
  inliers : List ℕ

/-! ### Static matching helpers -/

/-- Modelled from the spec: body of `Tracker::findOutliers` (Tracker.h line
126) is absent.  The outliers are the match indices not listed as inliers, in
increasing order. -/
def findOutliers (matches_ref_cur : KeypointMatches) (inliers : List ℕ) :
    List ℕ :=
  (List.range matches_ref_cur.length).filter (fun k => decide (k ∉ inliers))

/-- Modelled from the spec: body of `Tracker::findMatchingKeypoints`
(Tracker.h line 130) is absent.  For each landmark id of the current frame
(in iteration order of the current frame's landmark array) that is also
present in the reference frame, emit the index pair (spec §4.2). -/
def findMatchingKeypoints (ref_frame cur_frame : Frame) : KeypointMatches :=
  cur_frame.landmarks.enum.filterMap (fun jl =>
    if jl.2 ∈ ref_frame.landmarks then
      some (ref_frame.landmarks.indexOf jl.2, jl.1)
    else
      none)

/-- Modelled from the spec: body of `Tracker::findMatchingStereoKeypoints`
(Tracker.h line 134) is absent.  Identity-intersection matching restricted to
the left images (spec §4.2). -/
def findMatchingStereoKeypoints (ref_stereoFrame cur_stereoFrame : StereoFrame) :
    KeypointMatches :=
  findMatchingKeypoints ref_stereoFrame.left_frame cur_stereoFrame.left_frame

/-! ### Median disparity -/

/-- Squared Euclidean pixel displacement between the matched reference and
current keypoints of one match. -/
def sqDisparity (ref_frame_kpts cur_frame_kpts : List KeypointCV)
    (rc : KeypointMatch) : ℚ :=
  let p := ref_frame_kpts.getD rc.1 ⟨0, 0⟩
  let q := cur_frame_kpts.getD rc.2 ⟨0, 0⟩
  (q.x - p.x) ^ 2 + (q.y - p.y) ^ 2

/-- The squared pixel displacements of all matches, in match order. -/
def sqDisparities (ref_frame_kpts cur_frame_kpts : List KeypointCV)
    (matches_ref_cur : KeypointMatches) : List ℚ :=
  matches_ref_cur.map (sqDisparity ref_frame_kpts cur_frame_kpts)

/-- The squared pixel displacements sorted in non-decreasing order. -/
def sortedSqDisparities (ref_frame_kpts cur_frame_kpts : List KeypointCV)
    (matches_ref_cur : KeypointMatches) : List ℚ :=
  (sqDisparities ref_frame_kpts cur_frame_kpts matches_ref_cur).insertionSort (· ≤ ·)

/-- The two middle elements of a sorted list: `none` for the empty list, the
sole middle element twice for odd length, the two central elements for even
length. -/
def middles (l : List ℚ) : Option (ℚ × ℚ) :=
  if l.length = 0 then none
  else if l.length % 2 = 1 then
    some (l.getD (l.length / 2) 0, l.getD (l.length / 2) 0)
  else
    some (l.getD (l.length / 2 - 1) 0, l.getD (l.length / 2) 0)

/-- The Euclidean pixel displacements of all matches, in match order. -/
noncomputable def euclideanDisparities
    (ref_frame_kpts cur_frame_kpts : List KeypointCV)
    (matches_ref_cur : KeypointMatches) : List ℝ :=
  (sqDisparities ref_frame_kpts cur_frame_kpts matches_ref_cur).map
    (fun (q : ℚ) => Real.sqrt (q : ℝ))

/-- Modelled from the spec: body of `Tracker::computeMedianDisparity`
(Tracker.h line 145) is absent.  Computes the median Euclidean pixel
displacement over the matched points and reports no value when the match
list is empty (spec §4.4).  The median of an even-length sample is the mean
of the two central order statistics; since the real square root is monotone
the order statistics of the displacements are the square roots of the order
statistics of the squared displacements. -/
noncomputable def computeMedianDisparity
    (ref_frame_kpts cur_frame_kpts : List KeypointCV)
    (matches_ref_cur : KeypointMatches) : Option ℝ :=
  (middles (sortedSqDisparities ref_frame_kpts cur_frame_kpts matches_ref_cur)).map
    (fun (ab : ℚ × ℚ) => (Real.sqrt (ab.1 : ℝ) + Real.sqrt (ab.2 : ℝ)) / 2)

/-- Decides whether the median Euclidean pixel displacement is strictly below
the threshold `θ`, using only rational arithmetic: for middle squared
displacements `a ≤ b`, `(√a + √b)/2 < θ` iff `a + b < (2θ)²` and
`4ab < ((2θ)² - a - b)²` (see `sqrt_add_sqrt_lt_iff`). -/
def medianDisparityBelow (ref_frame_kpts cur_frame_kpts : List KeypointCV)
    (matches_ref_cur : KeypointMatches) (θ : ℚ) : Bool :=
  match middles (sortedSqDisparities ref_frame_kpts cur_frame_kpts matches_ref_cur) with
  | none => false
  | some (a, b) =>
      decide (a + b < (2 * θ) ^ 2 ∧ 4 * (a * b) < ((2 * θ) ^ 2 - a - b) ^ 2)

/-! ### Outlier removal -/

/-- The positions of the reference frame's arrays referenced by an outlier
match. -/
def outlierRefPositions (matches_ref_cur : KeypointMatches)
    (inliers : List ℕ) : List ℕ :=
  (findOutliers matches_ref_cur inliers).map
    (fun k => (matches_ref_cur.getD k (0, 0)).1)

/-- The positions of the current frame's arrays referenced by an outlier
match. -/
def outlierCurPositions (matches_ref_cur : KeypointMatches)
    (inliers : List ℕ) : List ℕ :=
  (findOutliers matches_ref_cur inliers).map
    (fun k => (matches_ref_cur.getD k (0, 0)).2)

/-- Drops from `l` every element whose position (counted from `k`) lies in
`bad`, keeping the remaining elements in order. -/
def dropPosFrom (bad : List ℕ) : ℕ → List α → List α
  | _, [] => []
  | k, x :: xs =>
      if k ∈ bad then dropPosFrom bad (k + 1) xs
      else x :: dropPosFrom bad (k + 1) xs

/-- Drops from `l` every element whose position lies in `bad`. -/
def dropPositions (bad : List ℕ) (l : List α) : List α :=
  dropPosFrom bad 0 l

/-- The new position of old position `i` after the positions in `bad` have
been dropped: the number of retained positions before `i`. -/
def newIndex (bad : List ℕ) (i : ℕ) : ℕ :=
  ((List.range i).filter (fun j => decide (j ∉ bad))).length

/-- The matches kept by outlier removal: the matches whose index is not an
outlier index, in their original order. -/
def keptMatches (matches_ref_cur : KeypointMatches) (inliers : List ℕ) :
    KeypointMatches :=
  (matches_ref_cur.enum.filter
    (fun p => decide (p.1 ∉ findOutliers matches_ref_cur inliers))).map Prod.snd

/-- Modelled from the spec: body of `Tracker::removeOutliersMono` (Tracker.h
line 104) is absent.  Given the final inlier index set, compacts both frames'
keypoint/landmark arrays by dropping the positions referenced by an outlier
match and rewrites the match list to the new, compacted indices — an in-place
filter that preserves relative ordering (spec §4.3); with the full inlier set
it is the identity (spec §8). -/
def removeOutliersMono (inliers : List ℕ) (ref_frame cur_frame : Frame)
    (matches_ref_cur : KeypointMatches) :
    Frame × Frame × KeypointMatches :=
  let badRef := outlierRefPositions matches_ref_cur inliers
  let badCur := outlierCurPositions matches_ref_cur inliers
  (⟨dropPositions badRef ref_frame.keypoints,
    dropPositions badRef ref_frame.landmarks⟩,
   ⟨dropPositions badCur cur_frame.keypoints,
    dropPositions badCur cur_frame.landmarks⟩,
   (keptMatches matches_ref_cur inliers).map
     (fun p => (newIndex badRef p.1, newIndex badCur p.2)))

/-- Compacts a stereo frame by dropping the given left-keypoint positions from
the left frame's arrays and from the index-aligned status and depth arrays. -/
def compactStereoFrame (bad : List ℕ) (sf : StereoFrame) : StereoFrame :=
  ⟨⟨dropPositions bad sf.left_frame.keypoints,
    dropPositions bad sf.left_frame.landmarks⟩,
   sf.right_frame,
   dropPositions bad sf.right_keypoints_status,
   dropPositions bad sf.keypoints_depth⟩

/-- Modelled from the spec: body of `Tracker::removeOutliersStereo`
(Tracker.h line 109) is absent.  The stereo analogue of
`removeOutliersMono`: compacts the left frames' arrays together with the
index-aligned status/depth arrays and rewrites the match list (spec §4.3). -/
def removeOutliersStereo (inliers : List ℕ)
    (ref_stereoFrame cur_stereoFrame : StereoFrame)
    (matches_ref_cur : KeypointMatches) :
    StereoFrame × StereoFrame × KeypointMatches :=
  let badRef := outlierRefPositions matches_ref_cur inliers
  let badCur := outlierCurPositions matches_ref_cur inliers
  (compactStereoFrame badRef ref_stereoFrame,
   compactStereoFrame badCur cur_stereoFrame,
   (keptMatches matches_ref_cur inliers).map
     (fun p => (newIndex badRef p.1, newIndex badCur p.2)))

/-! ### Feature detection and tracking -/

/-- Modelled from the spec: the tracker's private state (Tracker.h line 167)
is the incremental id assigned to new landmarks, initialized to zero and
monotonically advanced (spec §3, §9). -/
structure Tracker where
  landmark_count : LandmarkId
deriving DecidableEq, Repr

/-- Modelled from the spec: body of `Tracker::featureDetection` (Tracker.h
line 82/152) is absent.  `corners` is the scored output of the external
salient-point detection capability; up to `need_n_corners` of them are
accepted, each accepted point is assigned a freshly minted, never-before-used
landmark identifier, and the caller's frame gains the new keypoints and ids
(spec §4.1). -/
def featureDetection (t : Tracker) (cur_frame : Frame)
    (corners : List KeypointCV) (need_n_corners : ℕ) : Tracker × Frame :=
  let accepted := corners.take need_n_corners
  let newIds := List.range' t.landmark_count accepted.length
  (⟨t.landmark_count + accepted.length⟩,
   ⟨cur_frame.keypoints ++ accepted, cur_frame.landmarks ++ newIds⟩)

/-- The landmark ids newly assigned by one `featureDetection` call: the ids
appended past the frame's previous landmark array. -/
def assignedIds (t : Tracker) (cur_frame : Frame)
    (corners : List KeypointCV) (need_n_corners : ℕ) : List LandmarkId :=
  ((featureDetection t cur_frame corners need_n_corners).2.landmarks).drop
    cur_frame.landmarks.length

/-- One detection event: the frame handed to the tracker, the corners the
external detector produced for it and the requested corner count. -/
structure DetectionEvent where
  frame : Frame
  corners : List KeypointCV
  need : ℕ

/-- Runs a sequence of detection events through one tracker instance and
collects, per event, the list of newly assigned landmark ids. -/
def runDetections (t : Tracker) : List DetectionEvent → List (List LandmarkId)
  | [] => []
  | e :: rest =>
      assignedIds t e.frame e.corners e.need ::
        runDetections (featureDetection t e.frame e.corners e.need).1 rest

/-- Walks the reference frame's keypoint and landmark arrays in parallel and
keeps, with its landmark id, every keypoint whose predicted location survives
the external refinement (`predict` returns `none` exactly when the prediction
fails the refinement). -/
def trackPoints (predict : KeypointCV → LandmarkId → Option KeypointCV) :
    List KeypointCV → List LandmarkId → List (KeypointCV × LandmarkId)
  | kp :: kps, lm :: lms =>
      match predict kp lm with
      | some kp2 => (kp2, lm) :: trackPoints predict kps lms
      | none => trackPoints predict kps lms
  | _, _ => []

/-- Modelled from the spec: body of `Tracker::featureTracking` (Tracker.h
line 65) is absent.  Advances each landmark of the reference frame into the
current frame through the external correspondence predictor (which already
carries the inter-frame rotation hypothesis); landmarks whose prediction
fails the refinement are dropped, and no new ids are minted (spec §4.1).
Returns the keypoint/landmark content the current frame is given. -/
def featureTracking (predict : KeypointCV → LandmarkId → Option KeypointCV)
    (ref_frame : Frame) : Frame :=
  let tracked := trackPoints predict ref_frame.keypoints ref_frame.landmarks
  ⟨tracked.map Prod.fst, tracked.map Prod.snd⟩

/-! ### Geometric outlier rejection -/

/-- Modelled from the spec: body of `Tracker::geometricOutlierRejectionMono`
(Tracker.h line 84) is absent.  Pre-check: with fewer raw correspondences
than the configured minimum return `FEW_MATCHES` immediately, with no model
fitting attempted; otherwise invoke the external robust 2D-2D estimator and
return `VALID` (pruning outliers from the frames) when the inlier ratio
clears the configured threshold, `INVALID` otherwise (spec §4.3).  Besides
the status/pose pair the model returns the resulting frames and match list
and, as call-count instrumentation, the number of robust-estimator
invocations. -/
def geometricOutlierRejectionMono (params : FrontendParams)
    (ransac : KeypointMatches → RansacResult)
    (ref_frame cur_frame : Frame) :
    (TrackingStatus × Pose3) × (Frame × Frame × KeypointMatches) × ℕ :=
  let matches_ref_cur := findMatchingKeypoints ref_frame cur_frame
  if matches_ref_cur.length < params.minNumberMatches then
    ((TrackingStatus.FEW_MATCHES, Pose3.identity),
     (ref_frame, cur_frame, matches_ref_cur), 0)
  else
    let result := ransac matches_ref_cur
    if result.success = false then
      ((TrackingStatus.INVALID, Pose3.identity),
       (ref_frame, cur_frame, matches_ref_cur), 1)
    else if (result.inliers.length : ℚ) <
        params.inlierRatioThreshold * (matches_ref_cur.length : ℚ) then
      ((TrackingStatus.INVALID, result.pose),
       (ref_frame, cur_frame, matches_ref_cur), 1)
    else
      ((TrackingStatus.VALID, result.pose),
       removeOutliersMono result.inliers ref_frame cur_frame matches_ref_cur, 1)

/-- Modelled from the spec: body of `Tracker::geometricOutlierRejectionStereo`
(Tracker.h line 88) is absent.  Pre-check as for mono; then the
median-disparity gate: if the median pixel disparity between the two frames
is below the configured disparity-degeneracy threshold, return
`LOW_DISPARITY` without attempting the fit; otherwise run the external robust
rigid-transform estimator and return `VALID`/`INVALID` analogously
(spec §4.3).  The trailing natural number counts robust-estimator
invocations. -/
def geometricOutlierRejectionStereo (params : FrontendParams)
    (ransac : KeypointMatches → RansacResult)
    (ref_stereoFrame cur_stereoFrame : StereoFrame) :
    (TrackingStatus × Pose3) × (StereoFrame × StereoFrame × KeypointMatches) × ℕ :=
  let matches_ref_cur := findMatchingStereoKeypoints ref_stereoFrame cur_stereoFrame
  if matches_ref_cur.length < params.minNumberMatches then
    ((TrackingStatus.FEW_MATCHES, Pose3.identity),
     (ref_stereoFrame, cur_stereoFrame, matches_ref_cur), 0)
  else if medianDisparityBelow ref_stereoFrame.left_frame.keypoints
      cur_stereoFrame.left_frame.keypoints matches_ref_cur params.disparityThreshold then
    ((TrackingStatus.LOW_DISPARITY, Pose3.identity),
     (ref_stereoFrame, cur_stereoFrame, matches_ref_cur), 0)
  else
    let result := ransac matches_ref_cur
    if result.success = false then
      ((TrackingStatus.INVALID, Pose3.identity),
       (ref_stereoFrame, cur_stereoFrame, matches_ref_cur), 1)
    else if (result.inliers.length : ℚ) <
        params.inlierRatioThreshold * (matches_ref_cur.length : ℚ) then
      ((TrackingStatus.INVALID, result.pose),
       (ref_stereoFrame, cur_stereoFrame, matches_ref_cur), 1)
    else
      ((TrackingStatus.VALID, result.pose),
       removeOutliersStereo result.inliers ref_stereoFrame cur_stereoFrame
         matches_ref_cur, 1)

/-! ### Stereo geometry -/

/-- A 3-vector with rational entries. -/
abbrev Vector3 := Fin 3 → ℚ

/-- A 3x3 matrix with rational entries. -/
abbrev Matrix3 := Fin 3 → Fin 3 → ℚ

/-- Modelled from the spec: body of `Tracker::getPoint3AndCovariance`
(Tracker.h line 156) is absent.  Triangulates the 3D position of one stereo
correspondence and propagates the measurement covariance through the
triangulation; the triangulation itself is the external stereo-camera
capability `triangulate`.  If the stereo status of the requested point is not
`VALID` (or the index is out of range) the call signals a reported error
carrying the offending index and status instead of returning a point
(spec §4.4, §7). -/
def getPoint3AndCovariance (stereoFrame : StereoFrame)
    (triangulate : ℕ → Matrix3 → Vector3 × Matrix3) (pointId : ℕ)
    (stereoPtCov : Matrix3) :
    Except (ℕ × Option KeypointStatus) (Vector3 × Matrix3) :=
  match stereoFrame.right_keypoints_status.get? pointId with
  | none => Except.error (pointId, none)
  | some st =>
      if st = KeypointStatus.VALID then
        Except.ok (triangulate pointId stereoPtCov)
      else
        Except.error (pointId, some st)

/-! ## Theorems -/

/-- C10: for every match list and inlier index list, `findOutliers` produces
exactly the complement: its output contains precisely the match indices in
`[0, matches.length)` that do not occur in the inlier list, in strictly
increasing order, and every match index lies in exactly one of the inlier
and outlier index sets. -/
theorem findOutliers_complement :
    ∀ (matches_ref_cur : KeypointMatches) (inliers : List ℕ),
      (∀ k, k ∈ findOutliers matches_ref_cur inliers ↔
          (k < matches_ref_cur.length ∧ k ∉ inliers))
      ∧ (findOutliers matches_ref_cur inliers).Pairwise (· < ·)
      ∧ (∀ k, k < matches_ref_cur.length →
          ((k ∈ inliers ∧ k ∉ findOutliers matches_ref_cur inliers) ∨
           (k ∉ inliers ∧ k ∈ findOutliers matches_ref_cur inliers))) := by
  intro ms inliers
  refine ⟨?_, ?_, ?_⟩
  · intro k
    simp [findOutliers, List.mem_filter, List.mem_range]
  · exact List.Pairwise.sublist (List.filter_sublist _) (List.pairwise_lt_range _)
  · intro k hk
    by_cases h : k ∈ inliers
    · refine Or.inl ⟨h, ?_⟩
      simp [findOutliers, List.mem_filter, h]
    · refine Or.inr ⟨h, ?_⟩
      simp [findOutliers, List.mem_filter, List.mem_range, h, hk]

/-- C10 witness: on the match list `[(0,0),(1,1),(2,2)]` with inliers `[1]`,
index `1` falls in exactly one side of the inlier/outlier partition. -/
theorem findOutliers_complement_witness :
    ((1 : ℕ) ∈ [(1 : ℕ)] ∧ (1 : ℕ) ∉ findOutliers [(0, 0), (1, 1), (2, 2)] [1]) ∨
      ((1 : ℕ) ∉ [(1 : ℕ)] ∧ (1 : ℕ) ∈ findOutliers [(0, 0), (1, 1), (2, 2)] [1]) :=
  (findOutliers_complement [(0, 0), (1, 1), (2, 2)] [1]).2.2 1 (by decide)

/-! ### The mono matcher (C3) -/

/-- The frame indices of the emitted matches are the positions of the current
frame's landmark array whose id is shared with the reference list. -/
lemma filterMap_match_map_snd {p : LandmarkId → Prop} [DecidablePred p]
    (g : LandmarkId → ℕ) :
    ∀ L : List (ℕ × LandmarkId),
      ((L.filterMap (fun jl =>
          if p jl.2 then some (g jl.2, jl.1) else none)).map Prod.snd)
        = (L.filter (fun jl => decide (p jl.2))).map Prod.fst
  | [] => rfl
  | jl :: L => by
      by_cases h : p jl.2 <;>
        simp [h, filterMap_match_map_snd (p := p) g L]

/-- Closed form for the current-frame components of the mono matcher: the
positions of the current frame's landmarks that are shared with the
reference frame, in order. -/
lemma findMatchingKeypoints_map_snd (ref_frame cur_frame : Frame) :
    (findMatchingKeypoints ref_frame cur_frame).map Prod.snd
      = (cur_frame.landmarks.enum.filter
          (fun jl => decide (jl.2 ∈ ref_frame.landmarks))).map Prod.fst := by
  unfold findMatchingKeypoints
  exact filterMap_match_map_snd (p := fun lm => lm ∈ ref_frame.landmarks)
    (fun lm => ref_frame.landmarks.indexOf lm) cur_frame.landmarks.enum

/-- C3: the mono matcher emits, for each landmark id present in both frames,
exactly one index pair and nothing else — each emitted pair addresses the
same landmark id in both frames — and the pairs appear in the iteration
order of the current frame's landmark array, independent of the ordering of
the reference frame's arrays. -/
theorem findMatchingKeypoints_matcher_correct :
    ∀ ref_frame cur_frame : Frame, cur_frame.landmarks.Nodup →
      (∀ p ∈ findMatchingKeypoints ref_frame cur_frame,
          p.1 < ref_frame.landmarks.length ∧
          p.2 < cur_frame.landmarks.length ∧
          ref_frame.landmarks.getD p.1 0 = cur_frame.landmarks.getD p.2 0)
      ∧ (∀ lm : LandmarkId,
          lm ∈ ref_frame.landmarks → lm ∈ cur_frame.landmarks →
          (findMatchingKeypoints ref_frame cur_frame).countP
            (fun p => decide (cur_frame.landmarks[p.2]? = some lm)) = 1)
      ∧ ((findMatchingKeypoints ref_frame cur_frame).map Prod.snd).Pairwise (· < ·)
      ∧ (∀ ref2 : Frame,
          (∀ lm, lm ∈ ref2.landmarks ↔ lm ∈ ref_frame.landmarks) →
          (findMatchingKeypoints ref2 cur_frame).map Prod.snd =
            (findMatchingKeypoints ref_frame cur_frame).map Prod.snd) := by
  intro ref cur hc
  refine ⟨?_, ?_, ?_, ?_⟩
  · intro p hp
    rw [findMatchingKeypoints, List.mem_filterMap] at hp
    obtain ⟨jl, hjl, heq⟩ := hp
    by_cases h : jl.2 ∈ ref.landmarks
    · rw [if_pos h] at heq
      obtain rfl := Option.some.inj heq
      have hj : cur.landmarks[jl.1]? = some jl.2 :=
        List.mk_mem_enum_iff_getElem?.1 hjl
      have hjlt : jl.1 < cur.landmarks.length :=
        (List.getElem?_eq_some_iff.1 hj).1
      have hilt : ref.landmarks.indexOf jl.2 < ref.landmarks.length :=
        List.indexOf_lt_length.2 h
      refine ⟨hilt, hjlt, ?_⟩
      have h1 : ref.landmarks[ref.landmarks.indexOf jl.2]? = some jl.2 := by
        rw [List.getElem?_eq_getElem hilt]
        exact congrArg some (List.getElem_indexOf hilt)
      rw [List.getD_eq_getElem?_getD, List.getD_eq_getElem?_getD, h1, hj]
    · rw [if_neg h] at heq
      exact absurd heq (by simp)
  · intro lm hr hcur
    rw [findMatchingKeypoints, List.countP_filterMap]
    have step1 : cur.landmarks.enum.countP (fun jl =>
        ((if jl.2 ∈ ref.landmarks then
            some (ref.landmarks.indexOf jl.2, jl.1) else none).map
          (fun p => decide (cur.landmarks[p.2]? = some lm))).getD false)
        = cur.landmarks.enum.countP (fun jl => decide (jl.2 = lm)) := by
      refine List.countP_congr ?_
      intro jl hjl
      have hj : cur.landmarks[jl.1]? = some jl.2 :=
        List.mk_mem_enum_iff_getElem?.1 hjl
      by_cases h : jl.2 ∈ ref.landmarks
      · simp [h, hj]
      · simp [h]
        intro hlm
        exact h (by rw [hlm]; exact hr)
    rw [step1]
    have step2 := List.countP_map (fun b => decide (b = lm)) Prod.snd
      cur.landmarks.enum
    rw [List.enum_map_snd] at step2
    have step2' : cur.landmarks.enum.countP (fun jl => decide (jl.2 = lm))
        = cur.landmarks.countP (fun b => decide (b = lm)) := step2.symm
    rw [step2']
    have step3 : cur.landmarks.countP (fun b => decide (b = lm))
        = cur.landmarks.count lm := by
      rw [List.count_eq_countP]
      refine List.countP_congr ?_
      intro x hx
      simp
    rw [step3]
    exact List.count_eq_one_of_mem hc hcur
  · rw [findMatchingKeypoints_map_snd]
    have hsub : ((cur.landmarks.enum.filter
        (fun jl => decide (jl.2 ∈ ref.landmarks))).map Prod.fst).Sublist
        (cur.landmarks.enum.map Prod.fst) :=
      (List.filter_sublist _).map Prod.fst
    rw [List.enum_map_fst] at hsub
    exact List.Pairwise.sublist hsub (List.pairwise_lt_range _)
  · intro ref2 hiff
    rw [findMatchingKeypoints_map_snd, findMatchingKeypoints_map_snd]
    congr 1
    exact List.filter_congr (by
      intro jl hjl
      simp [hiff jl.2])

/-- C3 witness: for frames sharing landmark ids `{3, 7, 9}` — reference ids
`[9, 3, 5, 7]`, current ids `[3, 7, 2, 9]` — the matcher emits exactly the
three corresponding index pairs in current-frame order, and the landmark `3`
is matched exactly once. -/
theorem findMatchingKeypoints_matcher_correct_witness :
    findMatchingKeypoints ⟨[], [9, 3, 5, 7]⟩ ⟨[], [3, 7, 2, 9]⟩
        = [(1, 0), (3, 1), (0, 3)]
    ∧ (findMatchingKeypoints ⟨[], [9, 3, 5, 7]⟩ ⟨[], [3, 7, 2, 9]⟩).countP
        (fun p => decide (([3, 7, 2, 9] : List LandmarkId)[p.2]? = some 3)) = 1 := by
  refine ⟨by decide, ?_⟩
  exact (findMatchingKeypoints_matcher_correct ⟨[], [9, 3, 5, 7]⟩
    ⟨[], [3, 7, 2, 9]⟩ (by decide)).2.1 3 (by decide) (by decide)

/-! ### Median disparity (C4) -/

/-- A `getD` access below the length is a member of the list. -/
lemma getD_mem_of_lt {α : Type} (l : List α) (n : ℕ) (d : α)
    (h : n < l.length) : l.getD n d ∈ l := by
  rw [List.getD_eq_getElem?_getD, List.getElem?_eq_getElem h, Option.getD_some]
  exact List.getElem_mem h

/-- `middles` reports no value exactly on the empty list. -/
lemma middles_eq_none_iff (l : List ℚ) : middles l = none ↔ l.length = 0 := by
  unfold middles
  by_cases h : l.length = 0
  · simp [h]
  · simp only [h, if_false, iff_false]
    split <;> simp

/-- Both middle elements belong to the list. -/
lemma middles_mem {l : List ℚ} {a b : ℚ} (h : middles l = some (a, b)) :
    a ∈ l ∧ b ∈ l := by
  unfold middles at h
  by_cases h0 : l.length = 0
  · rw [if_pos h0] at h; exact absurd h (by simp)
  · have hpos : 0 < l.length := Nat.pos_of_ne_zero h0
    have hmid : l.length / 2 < l.length := Nat.div_lt_self hpos (by norm_num)
    have hmid' : l.length / 2 - 1 < l.length :=
      lt_of_le_of_lt (Nat.sub_le _ _) hmid
    rw [if_neg h0] at h
    by_cases hp : l.length % 2 = 1
    · rw [if_pos hp] at h
      obtain ⟨rfl, rfl⟩ := Prod.mk.injEq .. ▸ Option.some.inj h
      exact ⟨getD_mem_of_lt _ _ _ hmid, getD_mem_of_lt _ _ _ hmid⟩
    · rw [if_neg hp] at h
      obtain ⟨rfl, rfl⟩ := Prod.mk.injEq .. ▸ Option.some.inj h
      exact ⟨getD_mem_of_lt _ _ _ hmid', getD_mem_of_lt _ _ _ hmid⟩

/-- Every squared disparity is nonnegative. -/
lemma sqDisparities_nonneg (ref_frame_kpts cur_frame_kpts : List KeypointCV)
    (matches_ref_cur : KeypointMatches) :
    ∀ q ∈ sqDisparities ref_frame_kpts cur_frame_kpts matches_ref_cur, 0 ≤ q := by
  intro q hq
  rw [sqDisparities, List.mem_map] at hq
  obtain ⟨rc, -, rfl⟩ := hq
  unfold sqDisparity
  positivity

/-- The sorted squared disparities are a permutation of the squared
disparities. -/
lemma sortedSqDisparities_perm (ref_frame_kpts cur_frame_kpts : List KeypointCV)
    (matches_ref_cur : KeypointMatches) :
    (sortedSqDisparities ref_frame_kpts cur_frame_kpts matches_ref_cur).Perm
      (sqDisparities ref_frame_kpts cur_frame_kpts matches_ref_cur) :=
  List.perm_insertionSort _ _

/-- The sorted squared disparities are sorted. -/
lemma sortedSqDisparities_sorted (ref_frame_kpts cur_frame_kpts : List KeypointCV)
    (matches_ref_cur : KeypointMatches) :
    (sortedSqDisparities ref_frame_kpts cur_frame_kpts matches_ref_cur).Sorted (· ≤ ·) :=
  List.sorted_insertionSort _ _

/-- The number of (sorted) squared disparities is the number of matches. -/
lemma sortedSqDisparities_length (ref_frame_kpts cur_frame_kpts : List KeypointCV)
    (matches_ref_cur : KeypointMatches) :
    (sortedSqDisparities ref_frame_kpts cur_frame_kpts matches_ref_cur).length
      = matches_ref_cur.length := by
  rw [(sortedSqDisparities_perm _ _ _).length_eq, sqDisparities, List.length_map]

/-- Taking square roots commutes with (defaulted) indexing, the default `0`
being the square root of the default `0`. -/
lemma getD_map_sqrt (l : List ℚ) (k : ℕ) :
    (l.map (fun (q : ℚ) => Real.sqrt (q : ℝ))).getD k 0
      = Real.sqrt ((l.getD k 0 : ℚ) : ℝ) := by
  rw [List.getD_eq_getElem?_getD, List.getD_eq_getElem?_getD, List.getElem?_map]
  cases h : l[k]? with
  | none => simp
  | some q => simp

/-- C4: `computeMedianDisparity` reports no value exactly when the match list
is empty, and on a nonempty match list it returns the median of the Euclidean
pixel displacements of the matched point pairs: the middle order statistic
for an odd count, the mean of the two central order statistics for an even
count; on keypoints `ref = [(0,0),(0,10)]`, `cur = [(3,0),(0,14)]` with
matches `[(0,0),(1,1)]` it returns the median of `{3, 4}`, namely `3.5`. -/
theorem computeMedianDisparity_median :
    (∀ (ref_frame_kpts cur_frame_kpts : List KeypointCV)
        (matches_ref_cur : KeypointMatches),
        computeMedianDisparity ref_frame_kpts cur_frame_kpts matches_ref_cur = none
          ↔ matches_ref_cur = [])
    ∧ (∀ (ref_frame_kpts cur_frame_kpts : List KeypointCV)
        (matches_ref_cur : KeypointMatches),
        matches_ref_cur ≠ [] →
        ∃ d : List ℝ,
          d.Perm (euclideanDisparities ref_frame_kpts cur_frame_kpts matches_ref_cur)
          ∧ d.Sorted (· ≤ ·)
          ∧ computeMedianDisparity ref_frame_kpts cur_frame_kpts matches_ref_cur
              = some (if d.length % 2 = 1 then d.getD (d.length / 2) 0
                      else (d.getD (d.length / 2 - 1) 0 + d.getD (d.length / 2) 0) / 2))
    ∧ computeMedianDisparity [⟨0, 0⟩, ⟨0, 10⟩] [⟨3, 0⟩, ⟨0, 14⟩] [(0, 0), (1, 1)]
        = some (7 / 2) := by
  refine ⟨?_, ?_, ?_⟩
  · intro rk ck ms
    rw [computeMedianDisparity, Option.map_eq_none', middles_eq_none_iff,
      sortedSqDisparities_length]
    exact List.length_eq_zero
  · intro rk ck ms hne
    refine ⟨(sortedSqDisparities rk ck ms).map (fun (q : ℚ) => Real.sqrt (q : ℝ)),
      by rw [euclideanDisparities]; exact (sortedSqDisparities_perm rk ck ms).map _,
      ?_, ?_⟩
    · exact List.Pairwise.map _
        (fun a b hab => Real.sqrt_le_sqrt (by exact_mod_cast hab))
        (sortedSqDisparities_sorted rk ck ms)
    · have hlen0 : (sortedSqDisparities rk ck ms).length ≠ 0 := by
        rw [sortedSqDisparities_length]
        simpa using hne
      rw [computeMedianDisparity]
      rw [List.length_map, middles, if_neg hlen0]
      by_cases hp : (sortedSqDisparities rk ck ms).length % 2 = 1
      · rw [if_pos hp, if_pos hp, Option.map_some', getD_map_sqrt]
        congr 1
        ring
      · rw [if_neg hp, if_neg hp, Option.map_some', getD_map_sqrt, getD_map_sqrt]
  · have h0 : sqDisparity [⟨0, 0⟩, ⟨0, 10⟩] [⟨3, 0⟩, ⟨0, 14⟩] (0, 0) = 9 := by
      show ((3 : ℚ) - 0) ^ 2 + ((0 : ℚ) - 0) ^ 2 = 9
      norm_num
    have h1 : sqDisparity [⟨0, 0⟩, ⟨0, 10⟩] [⟨3, 0⟩, ⟨0, 14⟩] (1, 1) = 16 := by
      show ((0 : ℚ) - 0) ^ 2 + ((14 : ℚ) - 10) ^ 2 = 16
      norm_num
    have hsq : sqDisparities [⟨0, 0⟩, ⟨0, 10⟩] [⟨3, 0⟩, ⟨0, 14⟩]
        [(0, 0), (1, 1)] = [9, 16] := by
      rw [sqDisparities]
      simp only [List.map_cons, List.map_nil]
      rw [h0, h1]
    have hsort : sortedSqDisparities [⟨0, 0⟩, ⟨0, 10⟩] [⟨3, 0⟩, ⟨0, 14⟩]
        [(0, 0), (1, 1)] = [9, 16] := by
      rw [sortedSqDisparities, hsq]
      norm_num [List.insertionSort, List.orderedInsert]
    have hmid : middles (sortedSqDisparities [⟨0, 0⟩, ⟨0, 10⟩] [⟨3, 0⟩, ⟨0, 14⟩]
        [(0, 0), (1, 1)]) = some (9, 16) := by
      rw [hsort]
      norm_num [middles]
    rw [computeMedianDisparity, hmid, Option.map_some']
    have h9 : Real.sqrt (((9 : ℚ) : ℝ)) = 3 := by
      rw [show ((9 : ℚ) : ℝ) = (3 : ℝ) ^ 2 by norm_num]
      exact Real.sqrt_sq (by norm_num)
    have h16 : Real.sqrt (((16 : ℚ) : ℝ)) = 4 := by
      rw [show ((16 : ℚ) : ℝ) = (4 : ℝ) ^ 2 by norm_num]
      exact Real.sqrt_sq (by norm_num)
    rw [h9, h16]
    norm_num

/-- C4 witness: on the single-match input `ref = [(0,0)]`, `cur = [(1,0)]`,
matches `[(0,0)]`, the median exists and is the sorted singleton's middle
element. -/
theorem computeMedianDisparity_median_witness :
    ([((0 : ℕ), (0 : ℕ))] : KeypointMatches) ≠ []
    ∧ ∃ d : List ℝ,
        d.Perm (euclideanDisparities [⟨0, 0⟩] [⟨1, 0⟩] [(0, 0)])
        ∧ d.Sorted (· ≤ ·)
        ∧ computeMedianDisparity [⟨0, 0⟩] [⟨1, 0⟩] [(0, 0)]
            = some (if d.length % 2 = 1 then d.getD (d.length / 2) 0
                    else (d.getD (d.length / 2 - 1) 0 + d.getD (d.length / 2) 0) / 2) :=
  ⟨by decide,
   computeMedianDisparity_median.2.1 [⟨0, 0⟩] [⟨1, 0⟩] [(0, 0)] (by decide)⟩

/-! ### Stereo triangulation error signalling (C9) -/

/-- C9: `getPoint3AndCovariance` signals a reported error — carrying the
offending index and status — whenever the stereo status of the requested
point is not `VALID` (or the index is out of range), and it returns a
triangulated 3D point with covariance exactly when the status is `VALID`. -/
theorem getPoint3AndCovariance_status :
    ∀ (stereoFrame : StereoFrame)
      (triangulate : ℕ → Matrix3 → Vector3 × Matrix3)
      (pointId : ℕ) (stereoPtCov : Matrix3),
      (∀ st, stereoFrame.right_keypoints_status.get? pointId = some st →
          st ≠ KeypointStatus.VALID →
          getPoint3AndCovariance stereoFrame triangulate pointId stereoPtCov
            = Except.error (pointId, some st))
      ∧ (stereoFrame.right_keypoints_status.get? pointId = none →
          getPoint3AndCovariance stereoFrame triangulate pointId stereoPtCov
            = Except.error (pointId, none))
      ∧ (∀ pc, getPoint3AndCovariance stereoFrame triangulate pointId stereoPtCov
            = Except.ok pc
          ↔ (stereoFrame.right_keypoints_status.get? pointId
              = some KeypointStatus.VALID
             ∧ pc = triangulate pointId stereoPtCov)) := by
  intro sf tri pointId cov
  refine ⟨?_, ?_, ?_⟩
  · intro st hst hne
    rw [getPoint3AndCovariance, hst]
    simp [hne]
  · intro hnone
    rw [getPoint3AndCovariance, hnone]
  · intro pc
    rw [getPoint3AndCovariance]
    cases hst : sf.right_keypoints_status.get? pointId with
    | none => simp
    | some st =>
        by_cases h : st = KeypointStatus.VALID
        · subst h
          simp [eq_comm]
        · simp [h]

/-- C9 witness: a stereo frame whose only point has status `NO_DEPTH` yields
the reported error `(0, NO_DEPTH)` instead of a triangulated point. -/
theorem getPoint3AndCovariance_status_witness :
    getPoint3AndCovariance
        ⟨⟨[], []⟩, ⟨[], []⟩, [KeypointStatus.NO_DEPTH], []⟩
        (fun _ _ => (fun _ => 0, fun _ _ => 0)) 0 (fun _ _ => 0)
      = Except.error (0, some KeypointStatus.NO_DEPTH) :=
  (getPoint3AndCovariance_status
      ⟨⟨[], []⟩, ⟨[], []⟩, [KeypointStatus.NO_DEPTH], []⟩
      (fun _ _ => (fun _ => 0, fun _ _ => 0)) 0 (fun _ _ => 0)).1
    KeypointStatus.NO_DEPTH rfl (by decide)

/-! ### The few-matches gate of mono outlier rejection (C1) -/

/-- C1: whenever the raw correspondence list of the two frames has fewer
entries than the configured minimum-matches threshold,
`geometricOutlierRejectionMono` returns status `FEW_MATCHES` with the
identity pose, leaves both frames (and the match list) untouched, and never
invokes the robust estimator (invocation count 0), for every robust
estimator whatsoever. -/
theorem geometricOutlierRejectionMono_fewMatches :
    ∀ (params : FrontendParams) (ransac : KeypointMatches → RansacResult)
      (ref_frame cur_frame : Frame),
      (findMatchingKeypoints ref_frame cur_frame).length < params.minNumberMatches →
      geometricOutlierRejectionMono params ransac ref_frame cur_frame
        = ((TrackingStatus.FEW_MATCHES, Pose3.identity),
           (ref_frame, cur_frame, findMatchingKeypoints ref_frame cur_frame), 0) := by
  intro params ransac ref cur hlt
  rw [geometricOutlierRejectionMono]
  simp only [if_pos hlt]

/-- C1 witness: with threshold 5 and two frames sharing only 3 landmark ids,
the result is `FEW_MATCHES` with untouched frames and zero robust-estimator
invocations, even though the supplied estimator would report success. -/
theorem geometricOutlierRejectionMono_fewMatches_witness :
    geometricOutlierRejectionMono ⟨5, 1/2, 1/2⟩
        (fun ms => ⟨true, Pose3.identity, List.range ms.length⟩)
        ⟨[], [1, 2, 3]⟩ ⟨[], [1, 2, 3]⟩
      = ((TrackingStatus.FEW_MATCHES, Pose3.identity),
         (⟨[], [1, 2, 3]⟩, ⟨[], [1, 2, 3]⟩,
          findMatchingKeypoints ⟨[], [1, 2, 3]⟩ ⟨[], [1, 2, 3]⟩), 0) :=
  geometricOutlierRejectionMono_fewMatches ⟨5, 1/2, 1/2⟩
    (fun ms => ⟨true, Pose3.identity, List.range ms.length⟩)
    ⟨[], [1, 2, 3]⟩ ⟨[], [1, 2, 3]⟩ (by decide)

/-! ### Frame invariants under detection and tracking (C5) -/

/-- The landmark ids of the tracked points form a sublist of the reference
frame's landmark array. -/
lemma trackPoints_map_snd_sublist
    (predict : KeypointCV → LandmarkId → Option KeypointCV) :
    ∀ (kps : List KeypointCV) (lms : List LandmarkId),
      ((trackPoints predict kps lms).map Prod.snd).Sublist lms
  | [], lms => by
      cases lms <;> simp [trackPoints]
  | kp :: kps, [] => by simp [trackPoints]
  | kp :: kps, lm :: lms => by
      rw [trackPoints]
      cases predict kp lm with
      | none =>
          exact (trackPoints_map_snd_sublist predict kps lms).cons lm
      | some kp2 =>
          rw [List.map_cons]
          exact (trackPoints_map_snd_sublist predict kps lms).cons₂ lm

/-- C5: after a tracking call the produced frame satisfies the data-model
invariant (aligned array lengths and, when the reference frame's landmark
ids are unique, unique landmark ids); after a detection call on a
well-formed frame whose landmark ids are all below the tracker's counter,
the augmented frame again satisfies the invariant and all its ids are below
the advanced counter. -/
theorem frame_invariant_after_detect_track :
    (∀ (predict : KeypointCV → LandmarkId → Option KeypointCV)
        (ref_frame : Frame),
        (featureTracking predict ref_frame).keypoints.length
          = (featureTracking predict ref_frame).landmarks.length
        ∧ (ref_frame.landmarks.Nodup →
            (featureTracking predict ref_frame).landmarks.Nodup))
    ∧ (∀ (t : Tracker) (cur_frame : Frame) (corners : List KeypointCV)
        (need_n_corners : ℕ),
        cur_frame.WF →
        (∀ lm ∈ cur_frame.landmarks, lm < t.landmark_count) →
        (featureDetection t cur_frame corners need_n_corners).2.WF
        ∧ ∀ lm ∈ (featureDetection t cur_frame corners need_n_corners).2.landmarks,
            lm < (featureDetection t cur_frame corners need_n_corners).1.landmark_count) := by
  constructor
  · intro predict ref
    refine ⟨by simp [featureTracking], ?_⟩
    intro hnd
    exact List.Nodup.sublist
      (trackPoints_map_snd_sublist predict ref.keypoints ref.landmarks) hnd
  · intro t cur corners need hwf hbound
    rw [featureDetection]
    refine ⟨⟨?_, ?_⟩, ?_⟩
    · simp [hwf.1]
    · rw [List.nodup_append]
      refine ⟨hwf.2, List.nodup_range' _ _, ?_⟩
      intro lm hlm hlm'
      have h1 : lm < t.landmark_count := hbound lm hlm
      have h2 : t.landmark_count ≤ lm := by
        rw [List.mem_range'_1] at hlm'
        exact hlm'.1
      exact absurd h1 (not_lt.2 h2)
    · intro lm hlm
      rw [List.mem_append] at hlm
      rcases hlm with h | h
      · exact lt_of_lt_of_le (hbound lm h) (Nat.le_add_right _ _)
      · rw [List.mem_range'_1] at h
        exact h.2

/-- C5 witness: detecting two corners on a well-formed one-keypoint frame
with counter 2 yields a well-formed frame whose ids stay below the advanced
counter. -/
theorem frame_invariant_after_detect_track_witness :
    (featureDetection ⟨2⟩ ⟨[⟨1, 1⟩], [0]⟩ [⟨2, 2⟩, ⟨3, 3⟩] 2).2.WF
    ∧ ∀ lm ∈ (featureDetection ⟨2⟩ ⟨[⟨1, 1⟩], [0]⟩ [⟨2, 2⟩, ⟨3, 3⟩] 2).2.landmarks,
        lm < (featureDetection ⟨2⟩ ⟨[⟨1, 1⟩], [0]⟩ [⟨2, 2⟩, ⟨3, 3⟩] 2).1.landmark_count :=
  frame_invariant_after_detect_track.2 ⟨2⟩ ⟨[⟨1, 1⟩], [0]⟩ [⟨2, 2⟩, ⟨3, 3⟩] 2
    (by constructor <;> decide) (by decide)

/-! ### Monotonic, never-reused landmark identities (C6) -/

/-- The ids assigned by one detection call are the next
`(corners.take need).length` counter values. -/
lemma assignedIds_eq (t : Tracker) (cur_frame : Frame)
    (corners : List KeypointCV) (need_n_corners : ℕ) :
    assignedIds t cur_frame corners need_n_corners
      = List.range' t.landmark_count (corners.take need_n_corners).length := by
  rw [assignedIds, featureDetection]
  exact List.drop_left _ _

/-- Every id assigned anywhere in a run of detection events is at least the
starting counter value. -/
lemma runDetections_lower_bound :
    ∀ (events : List DetectionEvent) (t : Tracker) (ids : List LandmarkId)
      (x : LandmarkId), ids ∈ runDetections t events → x ∈ ids →
      t.landmark_count ≤ x
  | [], t, ids, x => by simp [runDetections]
  | e :: rest, t, ids, x => by
      intro hids hx
      rw [runDetections] at hids
      rcases List.mem_cons.1 hids with h | h
      · subst h
        rw [assignedIds_eq, List.mem_range'_1] at hx
        exact hx.1
      · have := runDetections_lower_bound rest _ ids x h hx
        calc t.landmark_count
            ≤ t.landmark_count + (e.corners.take e.need).length := Nat.le_add_right _ _
          _ ≤ x := this

/-- C6: across any sequence of detection events on one tracker instance, the
per-event sets of newly assigned landmark ids are strictly increasing from
event to event (hence pairwise disjoint — no id is ever reused), and a
tracking call mints no new ids: every id it propagates already occurs in
the reference frame. -/
theorem landmark_ids_never_reused :
    (∀ (t : Tracker) (events : List DetectionEvent),
        (runDetections t events).Pairwise
          (fun A B => ∀ x ∈ A, ∀ y ∈ B, x < y))
    ∧ (∀ (t : Tracker) (events : List DetectionEvent),
        (runDetections t events).Pairwise (fun A B => ∀ x ∈ A, x ∉ B))
    ∧ (∀ (predict : KeypointCV → LandmarkId → Option KeypointCV)
        (ref_frame : Frame) (lm : LandmarkId),
        lm ∈ (featureTracking predict ref_frame).landmarks →
        lm ∈ ref_frame.landmarks) := by
  have main : ∀ (events : List DetectionEvent) (t : Tracker),
      (runDetections t events).Pairwise
        (fun A B => ∀ x ∈ A, ∀ y ∈ B, x < y) := by
    intro events
    induction events with
    | nil => intro t; simp [runDetections]
    | cons e rest ih =>
        intro t
        rw [runDetections, List.pairwise_cons]
        refine ⟨?_, ih _⟩
        intro B hB x hx y hy
        rw [assignedIds_eq, List.mem_range'_1] at hx
        have hy' : (featureDetection t e.frame e.corners e.need).1.landmark_count ≤ y :=
          runDetections_lower_bound rest _ B y hB hy
        rw [featureDetection] at hy'
        calc x < t.landmark_count + (e.corners.take e.need).length := hx.2
          _ ≤ y := hy'
  refine ⟨fun t events => main events t, ?_, ?_⟩
  · intro t events
    exact (main events t).imp (fun h x hx hmem => lt_irrefl x (h x hx x hmem))
  · intro predict ref lm hlm
    exact (trackPoints_map_snd_sublist predict ref.keypoints ref.landmarks).subset hlm

/-- C6 witness: the identity-propagating tracking call on a frame with
landmark `7` returns only ids already present in the reference frame. -/
theorem landmark_ids_never_reused_witness :
    (7 : LandmarkId) ∈ (Frame.mk [⟨0, 0⟩] [7]).landmarks :=
  landmark_ids_never_reused.2.2 (fun kp _ => some kp) ⟨[⟨0, 0⟩], [7]⟩ 7
    (by decide)

/-! ### The disparity gate of stereo outlier rejection (C2) -/

/-- The rational decision procedure behind `medianDisparityBelow` is exact:
for nonnegative `a`, `b`, `c`, the sum of square roots `√a + √b` is below `c`
iff `a + b < c²` and `4ab < (c² - a - b)²`. -/
lemma sqrt_add_sqrt_lt_iff (a b c : ℚ) (ha : 0 ≤ a) (hb : 0 ≤ b)
    (hc : 0 ≤ c) :
    Real.sqrt (a : ℝ) + Real.sqrt (b : ℝ) < (c : ℝ)
      ↔ (a + b < c ^ 2 ∧ 4 * (a * b) < (c ^ 2 - a - b) ^ 2) := by
  have har : (0 : ℝ) ≤ (a : ℝ) := by exact_mod_cast ha
  have hbr : (0 : ℝ) ≤ (b : ℝ) := by exact_mod_cast hb
  have hcr : (0 : ℝ) ≤ (c : ℝ) := by exact_mod_cast hc
  have hx : Real.sqrt (a : ℝ) ^ 2 = (a : ℝ) := Real.sq_sqrt har
  have hy : Real.sqrt (b : ℝ) ^ 2 = (b : ℝ) := Real.sq_sqrt hbr
  have hx0 : (0 : ℝ) ≤ Real.sqrt (a : ℝ) := Real.sqrt_nonneg _
  have hy0 : (0 : ℝ) ≤ Real.sqrt (b : ℝ) := Real.sqrt_nonneg _
  have hxy0 : (0 : ℝ) ≤ Real.sqrt (a : ℝ) * Real.sqrt (b : ℝ) :=
    mul_nonneg hx0 hy0
  have hxyab : (Real.sqrt (a : ℝ) * Real.sqrt (b : ℝ)) ^ 2 = (a : ℝ) * (b : ℝ) := by
    rw [mul_pow, hx, hy]
  constructor
  · intro h
    have hsum0 : (0 : ℝ) ≤ Real.sqrt (a : ℝ) + Real.sqrt (b : ℝ) := by positivity
    have hc2 : (Real.sqrt (a : ℝ) + Real.sqrt (b : ℝ)) ^ 2 < (c : ℝ) ^ 2 := by
      have := mul_self_lt_mul_self hsum0 h
      nlinarith [this]
    have h1 : (a : ℝ) + (b : ℝ) < (c : ℝ) ^ 2 := by nlinarith [hc2, hx, hy, hxy0]
    have h2xy : 2 * (Real.sqrt (a : ℝ) * Real.sqrt (b : ℝ))
        < (c : ℝ) ^ 2 - (a : ℝ) - (b : ℝ) := by nlinarith [hc2, hx, hy]
    have h2 : 4 * ((a : ℝ) * (b : ℝ))
        < ((c : ℝ) ^ 2 - (a : ℝ) - (b : ℝ)) ^ 2 := by
      have hlt := mul_self_lt_mul_self (by positivity) h2xy
      nlinarith [hlt, hxyab]
    constructor
    · exact_mod_cast h1
    · exact_mod_cast h2
  · rintro ⟨h1, h2⟩
    have h1r : (a : ℝ) + (b : ℝ) < (c : ℝ) ^ 2 := by exact_mod_cast h1
    have h2r : 4 * ((a : ℝ) * (b : ℝ))
        < ((c : ℝ) ^ 2 - (a : ℝ) - (b : ℝ)) ^ 2 := by exact_mod_cast h2
    have ht0 : (0 : ℝ) ≤ (c : ℝ) ^ 2 - (a : ℝ) - (b : ℝ) := by linarith
    have hc0 : (0 : ℝ) < (c : ℝ) := by nlinarith [h1r, hcr, har, hbr]
    have h2xy : 2 * (Real.sqrt (a : ℝ) * Real.sqrt (b : ℝ))
        < (c : ℝ) ^ 2 - (a : ℝ) - (b : ℝ) := by
      refine lt_of_pow_lt_pow_left₀ 2 ht0 ?_
      nlinarith [hxyab, h2r]
    have h5 : (Real.sqrt (a : ℝ) + Real.sqrt (b : ℝ)) ^ 2 < (c : ℝ) ^ 2 := by
      nlinarith [hx, hy, h2xy]
    exact lt_of_pow_lt_pow_left₀ 2 hcr h5

/-- The boolean disparity gate fires exactly when the median disparity
exists and is strictly below the (nonnegative) threshold. -/
lemma medianDisparityBelow_iff (ref_frame_kpts cur_frame_kpts : List KeypointCV)
    (matches_ref_cur : KeypointMatches) (θ : ℚ) (hθ : 0 ≤ θ) :
    medianDisparityBelow ref_frame_kpts cur_frame_kpts matches_ref_cur θ = true
      ↔ ∃ m : ℝ,
          computeMedianDisparity ref_frame_kpts cur_frame_kpts matches_ref_cur
            = some m ∧ m < (θ : ℝ) := by
  unfold medianDisparityBelow computeMedianDisparity
  cases hmid : middles (sortedSqDisparities ref_frame_kpts cur_frame_kpts
      matches_ref_cur) with
  | none => simp
  | some ab =>
      obtain ⟨a, b⟩ := ab
      obtain ⟨hma, hmb⟩ := middles_mem hmid
      have ha : 0 ≤ a := sqDisparities_nonneg _ _ _ a
        ((sortedSqDisparities_perm _ _ _).subset hma)
      have hb : 0 ≤ b := sqDisparities_nonneg _ _ _ b
        ((sortedSqDisparities_perm _ _ _).subset hmb)
      have h2θ : (0 : ℚ) ≤ 2 * θ := by linarith
      simp only [Option.map_some', decide_eq_true_eq, Option.some.injEq]
      constructor
      · intro hd
        refine ⟨(Real.sqrt (a : ℝ) + Real.sqrt (b : ℝ)) / 2, rfl, ?_⟩
        have hlt := (sqrt_add_sqrt_lt_iff a b (2 * θ) ha hb h2θ).2 hd
        have : ((2 * θ : ℚ) : ℝ) = 2 * (θ : ℝ) := by push_cast; ring
        rw [this] at hlt
        linarith
      · rintro ⟨m, hm, hlt⟩
        subst hm
        refine (sqrt_add_sqrt_lt_iff a b (2 * θ) ha hb h2θ).1 ?_
        have : ((2 * θ : ℚ) : ℝ) = 2 * (θ : ℝ) := by push_cast; ring
        rw [this]
        linarith

/-- C2 (amended): whenever the stereo correspondence list meets the
minimum-matches pre-check and the median pixel disparity of the matched
points exists and lies strictly below the configured disparity-degeneracy
threshold, `geometricOutlierRejectionStereo` returns `LOW_DISPARITY` with
untouched frames and never invokes the robust estimator, regardless of the
estimator (hence of how many correspondences would have been inliers). -/
theorem geometricOutlierRejectionStereo_lowDisparity :
    ∀ (params : FrontendParams) (ransac : KeypointMatches → RansacResult)
      (ref_stereoFrame cur_stereoFrame : StereoFrame) (m : ℝ),
      0 ≤ params.disparityThreshold →
      params.minNumberMatches ≤
        (findMatchingStereoKeypoints ref_stereoFrame cur_stereoFrame).length →
      computeMedianDisparity ref_stereoFrame.left_frame.keypoints
        cur_stereoFrame.left_frame.keypoints
        (findMatchingStereoKeypoints ref_stereoFrame cur_stereoFrame) = some m →
      m < (params.disparityThreshold : ℝ) →
      geometricOutlierRejectionStereo params ransac ref_stereoFrame cur_stereoFrame
        = ((TrackingStatus.LOW_DISPARITY, Pose3.identity),
           (ref_stereoFrame, cur_stereoFrame,
            findMatchingStereoKeypoints ref_stereoFrame cur_stereoFrame), 0) := by
  intro params ransac rsf csf m hθ hge hmed hlt
  have hgate : medianDisparityBelow rsf.left_frame.keypoints
      csf.left_frame.keypoints (findMatchingStereoKeypoints rsf csf)
      params.disparityThreshold = true :=
    (medianDisparityBelow_iff _ _ _ _ hθ).2 ⟨m, hmed, hlt⟩
  rw [geometricOutlierRejectionStereo]
  simp only [if_neg (not_lt.2 hge), hgate, if_true]

/-- C2 counterexample: the claim as stated fails when the pre-check fires
first.  Two identical one-point stereo frames share one landmark, the single
match has zero disparity (median `0`, below the threshold `1/2`), yet with
minimum-matches threshold `5` the call returns `FEW_MATCHES`, not
`LOW_DISPARITY`. -/
theorem geometricOutlierRejectionStereo_lowDisparity_cex :
    findMatchingStereoKeypoints ⟨⟨[⟨0, 0⟩], [5]⟩, ⟨[], []⟩, [.VALID], [1]⟩
        ⟨⟨[⟨0, 0⟩], [5]⟩, ⟨[], []⟩, [.VALID], [1]⟩ = [(0, 0)]
    ∧ computeMedianDisparity [⟨0, 0⟩] [⟨0, 0⟩] [(0, 0)] = some 0
    ∧ (0 : ℝ) < (((1 : ℚ) / 2 : ℚ) : ℝ)
    ∧ (geometricOutlierRejectionStereo ⟨5, 1/2, 1/2⟩
        (fun _ => ⟨false, Pose3.identity, []⟩)
        ⟨⟨[⟨0, 0⟩], [5]⟩, ⟨[], []⟩, [.VALID], [1]⟩
        ⟨⟨[⟨0, 0⟩], [5]⟩, ⟨[], []⟩, [.VALID], [1]⟩).1.1
        = TrackingStatus.FEW_MATCHES
    ∧ (geometricOutlierRejectionStereo ⟨5, 1/2, 1/2⟩
        (fun _ => ⟨false, Pose3.identity, []⟩)
        ⟨⟨[⟨0, 0⟩], [5]⟩, ⟨[], []⟩, [.VALID], [1]⟩
        ⟨⟨[⟨0, 0⟩], [5]⟩, ⟨[], []⟩, [.VALID], [1]⟩).1.1
        ≠ TrackingStatus.LOW_DISPARITY := by
  have hmatch : findMatchingStereoKeypoints
      ⟨⟨[⟨0, 0⟩], [5]⟩, ⟨[], []⟩, [.VALID], [1]⟩
      ⟨⟨[⟨0, 0⟩], [5]⟩, ⟨[], []⟩, [.VALID], [1]⟩ = [(0, 0)] := by decide
  have hsq : sqDisparities [⟨0, 0⟩] [⟨0, 0⟩] [(0, 0)] = [0] := by
    have h0 : sqDisparity [⟨0, 0⟩] [⟨0, 0⟩] (0, 0) = 0 := by
      show ((0 : ℚ) - 0) ^ 2 + ((0 : ℚ) - 0) ^ 2 = 0
      norm_num
    rw [sqDisparities]
    simp only [List.map_cons, List.map_nil]
    rw [h0]
  have hmed : computeMedianDisparity [⟨0, 0⟩] [⟨0, 0⟩] [(0, 0)] = some 0 := by
    have hsort : sortedSqDisparities [⟨0, 0⟩] [⟨0, 0⟩] [(0, 0)] = [0] := by
      rw [sortedSqDisparities, hsq]
      rfl
    have hmid : middles (sortedSqDisparities [⟨0, 0⟩] [⟨0, 0⟩] [(0, 0)])
        = some (0, 0) := by
      rw [hsort]
      norm_num [middles]
    rw [computeMedianDisparity, hmid, Option.map_some']
    norm_num
  have hstat : (geometricOutlierRejectionStereo ⟨5, 1/2, 1/2⟩
      (fun _ => ⟨false, Pose3.identity, []⟩)
      ⟨⟨[⟨0, 0⟩], [5]⟩, ⟨[], []⟩, [.VALID], [1]⟩
      ⟨⟨[⟨0, 0⟩], [5]⟩, ⟨[], []⟩, [.VALID], [1]⟩).1.1
      = TrackingStatus.FEW_MATCHES := by
    rw [geometricOutlierRejectionStereo]
    rw [hmatch]
    norm_num
  refine ⟨hmatch, hmed, by norm_num, hstat, ?_⟩
  rw [hstat]
  decide

/-- C2 witness (for the amended theorem): with minimum-matches threshold `1`
and one zero-disparity match between identical one-point stereo frames, the
call returns `LOW_DISPARITY`, untouched frames, and zero robust-estimator
invocations. -/
theorem geometricOutlierRejectionStereo_lowDisparity_witness :
    geometricOutlierRejectionStereo ⟨1, 1/2, 1/2⟩
        (fun _ => ⟨true, Pose3.identity, [0]⟩)
        ⟨⟨[⟨0, 0⟩], [5]⟩, ⟨[], []⟩, [.VALID], [1]⟩
        ⟨⟨[⟨0, 0⟩], [5]⟩, ⟨[], []⟩, [.VALID], [1]⟩
      = ((TrackingStatus.LOW_DISPARITY, Pose3.identity),
         (⟨⟨[⟨0, 0⟩], [5]⟩, ⟨[], []⟩, [.VALID], [1]⟩,
          ⟨⟨[⟨0, 0⟩], [5]⟩, ⟨[], []⟩, [.VALID], [1]⟩,
          findMatchingStereoKeypoints ⟨⟨[⟨0, 0⟩], [5]⟩, ⟨[], []⟩, [.VALID], [1]⟩
            ⟨⟨[⟨0, 0⟩], [5]⟩, ⟨[], []⟩, [.VALID], [1]⟩), 0) := by
  have hmatch : findMatchingStereoKeypoints
      ⟨⟨[⟨0, 0⟩], [5]⟩, ⟨[], []⟩, [.VALID], [1]⟩
      ⟨⟨[⟨0, 0⟩], [5]⟩, ⟨[], []⟩, [.VALID], [1]⟩ = [(0, 0)] := by decide
  have hsq : sqDisparities [⟨0, 0⟩] [⟨0, 0⟩] [(0, 0)] = [0] := by
    have h0 : sqDisparity [⟨0, 0⟩] [⟨0, 0⟩] (0, 0) = 0 := by
      show ((0 : ℚ) - 0) ^ 2 + ((0 : ℚ) - 0) ^ 2 = 0
      norm_num
    rw [sqDisparities]
    simp only [List.map_cons, List.map_nil]
    rw [h0]
  have hmed : computeMedianDisparity [⟨0, 0⟩] [⟨0, 0⟩] [(0, 0)] = some 0 := by
    have hsort : sortedSqDisparities [⟨0, 0⟩] [⟨0, 0⟩] [(0, 0)] = [0] := by
      rw [sortedSqDisparities, hsq]
      rfl
    have hmid : middles (sortedSqDisparities [⟨0, 0⟩] [⟨0, 0⟩] [(0, 0)])
        = some (0, 0) := by
      rw [hsort]
      norm_num [middles]
    rw [computeMedianDisparity, hmid, Option.map_some']
    norm_num
  refine geometricOutlierRejectionStereo_lowDisparity ⟨1, 1/2, 1/2⟩
    (fun _ => ⟨true, Pose3.identity, [0]⟩) _ _ 0 (by norm_num) ?_ ?_ (by norm_num)
  · rw [hmatch]
    decide
  · rw [hmatch]
    exact hmed

/-! ### Outlier removal (C7) -/

/-- With the full inlier index set there are no outliers. -/
lemma findOutliers_full (matches_ref_cur : KeypointMatches) :
    findOutliers matches_ref_cur (List.range matches_ref_cur.length) = [] := by
  simp [findOutliers, List.filter_eq_nil_iff]

/-- Dropping no positions keeps the list. -/
lemma dropPosFrom_nil : ∀ (k : ℕ) (l : List α), dropPosFrom [] k l = l
  | _, [] => rfl
  | k, x :: xs => by
      rw [dropPosFrom, if_neg (List.not_mem_nil k)]
      rw [dropPosFrom_nil (k + 1) xs]

/-- Dropping no positions is the identity. -/
lemma dropPositions_nil (l : List α) : dropPositions [] l = l :=
  dropPosFrom_nil 0 l

/-- Reindexing after dropping no positions is the identity. -/
lemma newIndex_nil (i : ℕ) : newIndex [] i = i := by
  simp [newIndex]

/-- With the full inlier index set every match is kept. -/
lemma keptMatches_full (matches_ref_cur : KeypointMatches) :
    keptMatches matches_ref_cur (List.range matches_ref_cur.length)
      = matches_ref_cur := by
  unfold keptMatches
  simp only [findOutliers_full, List.not_mem_nil, not_false_iff, decide_True,
    List.filter_true]
  exact List.enum_map_snd _

/-- `dropPosFrom` keeps, in order, exactly the entries whose (offset)
position avoids the dropped set. -/
lemma dropPosFrom_eq_filter (bad : List ℕ) :
    ∀ (l : List α) (k : ℕ),
      dropPosFrom bad k l
        = ((l.enumFrom k).filter (fun p => decide (p.1 ∉ bad))).map Prod.snd
  | [], k => rfl
  | x :: xs, k => by
      rw [dropPosFrom, List.enumFrom_cons, List.filter_cons]
      by_cases h : k ∈ bad
      · rw [if_pos h, dropPosFrom_eq_filter bad xs (k + 1)]
        have hd : (decide ((k, x).1 ∉ bad)) = false := by simp [h]
        rw [hd]
        simp
      · rw [if_neg h, dropPosFrom_eq_filter bad xs (k + 1)]
        have hd : (decide ((k, x).1 ∉ bad)) = true := by simp [h]
        rw [hd]
        simp

/-- `dropPositions` keeps, in order, exactly the entries whose position
avoids the dropped set. -/
lemma dropPositions_eq_filter (bad : List ℕ) (l : List α) :
    dropPositions bad l
      = ((l.enum.filter (fun p => decide (p.1 ∉ bad))).map Prod.snd) :=
  dropPosFrom_eq_filter bad l 0

/-- The number of kept positions among the `i` positions starting at `k`. -/
def countKeptFrom (bad : List ℕ) (k i : ℕ) : ℕ :=
  ((List.range' k i).filter (fun j => decide (j ∉ bad))).length

lemma countKeptFrom_succ_mem {bad : List ℕ} {k : ℕ} (j : ℕ) (h : k ∈ bad) :
    countKeptFrom bad k (j + 1) = countKeptFrom bad (k + 1) j := by
  rw [countKeptFrom, countKeptFrom, List.range'_succ, List.filter_cons]
  simp [h]

lemma countKeptFrom_succ_not_mem {bad : List ℕ} {k : ℕ} (j : ℕ) (h : k ∉ bad) :
    countKeptFrom bad k (j + 1) = countKeptFrom bad (k + 1) j + 1 := by
  rw [countKeptFrom, countKeptFrom, List.range'_succ, List.filter_cons]
  simp [h, Nat.add_comm]

lemma newIndex_eq_countKeptFrom (bad : List ℕ) (i : ℕ) :
    newIndex bad i = countKeptFrom bad 0 i := by
  rw [newIndex, countKeptFrom, List.range_eq_range']

/-- Compacted indexing agrees with original indexing on every kept
position. -/
lemma dropPosFrom_getD (bad : List ℕ) (d : α) :
    ∀ (l : List α) (k i : ℕ), i < l.length → k + i ∉ bad →
      (dropPosFrom bad k l).getD (countKeptFrom bad k i) d = l.getD i d
  | [], k, i => by intro hi _; exact absurd hi (by simp)
  | x :: xs, k, 0 => by
      intro _ hbad
      rw [Nat.add_zero] at hbad
      rw [dropPosFrom, if_neg hbad]
      have h0 : countKeptFrom bad k 0 = 0 := rfl
      rw [h0, List.getD_cons_zero, List.getD_cons_zero]
  | x :: xs, k, j + 1 => by
      intro hi hbad
      have hj : j < xs.length := by
        rw [List.length_cons] at hi
        exact Nat.lt_of_succ_lt_succ hi
      have hbad' : (k + 1) + j ∉ bad := by
        have : (k + 1) + j = k + (j + 1) := by omega
        rw [this]
        exact hbad
      rw [dropPosFrom, List.getD_cons_succ]
      by_cases h : k ∈ bad
      · rw [if_pos h, countKeptFrom_succ_mem j h]
        exact dropPosFrom_getD bad d xs (k + 1) j hj hbad'
      · rw [if_neg h, countKeptFrom_succ_not_mem j h, List.getD_cons_succ]
        exact dropPosFrom_getD bad d xs (k + 1) j hj hbad'

/-- Compacted indexing agrees with original indexing on every position that
is not dropped. -/
lemma dropPositions_getD (bad : List ℕ) (l : List α) (i : ℕ) (d : α)
    (hi : i < l.length) (hbad : i ∉ bad) :
    (dropPositions bad l).getD (newIndex bad i) d = l.getD i d := by
  rw [dropPositions, newIndex_eq_countKeptFrom]
  exact dropPosFrom_getD bad d l 0 i hi (by simpa using hbad)

/-- A kept match is a match, at a non-outlier index. -/
lemma keptMatches_mem {matches_ref_cur : KeypointMatches} {inliers : List ℕ}
    {p : KeypointMatch} (hp : p ∈ keptMatches matches_ref_cur inliers) :
    ∃ k, k < matches_ref_cur.length
      ∧ matches_ref_cur[k]? = some p
      ∧ k ∉ findOutliers matches_ref_cur inliers := by
  unfold keptMatches at hp
  rw [List.mem_map] at hp
  obtain ⟨kp, hkp, rfl⟩ := hp
  rw [List.mem_filter] at hkp
  obtain ⟨hmem, hdec⟩ := hkp
  have hget : matches_ref_cur[kp.1]? = some kp.2 :=
    List.mk_mem_enum_iff_getElem?.1 hmem
  exact ⟨kp.1, (List.getElem?_eq_some_iff.1 hget).1, hget,
    of_decide_eq_true hdec⟩

/-- A kept match never addresses a position referenced by an outlier match,
provided the matches are injective in the projected component. -/
lemma kept_pos_not_outlier (f : KeypointMatch → ℕ)
    {matches_ref_cur : KeypointMatches} {inliers : List ℕ} {p : KeypointMatch}
    (hnd : (matches_ref_cur.map f).Nodup)
    (hp : p ∈ keptMatches matches_ref_cur inliers) :
    f p ∉ (findOutliers matches_ref_cur inliers).map
      (fun k => f (matches_ref_cur.getD k (0, 0))) := by
  obtain ⟨k, hk, hget, hnotout⟩ := keptMatches_mem hp
  intro hmem
  rw [List.mem_map] at hmem
  obtain ⟨k2, hk2out, hk2eq⟩ := hmem
  have hk2lt : k2 < matches_ref_cur.length :=
    (((findOutliers_complement matches_ref_cur inliers).1 k2).1 hk2out).1
  have hgd : matches_ref_cur.getD k2 (0, 0) = matches_ref_cur[k2] := by
    rw [List.getD_eq_getElem?_getD, List.getElem?_eq_getElem hk2lt,
      Option.getD_some]
  obtain ⟨hlt2, hpk⟩ := List.getElem?_eq_some_iff.1 hget
  have hmaplen : k < (matches_ref_cur.map f).length := by simpa using hk
  have hmaplen2 : k2 < (matches_ref_cur.map f).length := by simpa using hk2lt
  have e1 : (matches_ref_cur.map f)[k] = f p := by
    rw [List.getElem_map]
    exact congrArg f hpk
  have e2 : (matches_ref_cur.map f)[k2] = f p := by
    rw [List.getElem_map, ← hgd, hk2eq]
  have hkk : k = k2 := hnd.getElem_inj_iff.1 (e1.trans e2.symm)
  exact hnotout (hkk ▸ hk2out)

/-- C7 counterexample: the claim's "retains exactly the inlier entries"
fails on a frame with an unmatched entry.  With frames carrying landmarks
`[10, 11]`, a single match `(0,0)` and the empty (proper) inlier subset, the
compacted reference frame still carries the unmatched landmark `11` — its
position `1` is referenced by no match at all — instead of becoming empty as
the claim demands. -/
theorem removeOutliersMono_retains_unmatched :
    (removeOutliersMono [] ⟨[⟨1, 1⟩, ⟨2, 2⟩], [10, 11]⟩
        ⟨[⟨1, 1⟩, ⟨2, 2⟩], [10, 11]⟩ [(0, 0)]).1.landmarks = [11]
    ∧ (removeOutliersMono [] ⟨[⟨1, 1⟩, ⟨2, 2⟩], [10, 11]⟩
        ⟨[⟨1, 1⟩, ⟨2, 2⟩], [10, 11]⟩ [(0, 0)]).1.landmarks ≠ []
    ∧ ∀ q ∈ ([(0, 0)] : KeypointMatches), q.1 ≠ 1 :=
  ⟨by decide, by decide, by decide⟩

/-- C7 (amended): with the inlier index set equal to all match indices,
`removeOutliersMono` and `removeOutliersStereo` leave frames and match list
unchanged; for an arbitrary inlier subset both operations retain, in their
original relative order, exactly the entries whose position is not
referenced by an outlier match (for the stereo variant this covers the left
frames' arrays together with the index-aligned status and depth arrays), the
kept matches form a sublist of the original match list, and — for match
lists that address each frame position at most once, as the matcher
guarantees — every rewritten match index, on the reference side and on the
current side alike, addresses the same keypoint value as before the
compaction, in the mono and in the stereo variant. -/
theorem removeOutliers_compaction :
    (∀ (ref_frame cur_frame : Frame) (matches_ref_cur : KeypointMatches),
        removeOutliersMono (List.range matches_ref_cur.length) ref_frame
          cur_frame matches_ref_cur = (ref_frame, cur_frame, matches_ref_cur))
    ∧ (∀ (ref_stereoFrame cur_stereoFrame : StereoFrame)
        (matches_ref_cur : KeypointMatches),
        removeOutliersStereo (List.range matches_ref_cur.length) ref_stereoFrame
          cur_stereoFrame matches_ref_cur
          = (ref_stereoFrame, cur_stereoFrame, matches_ref_cur))
    ∧ (∀ (inliers : List ℕ) (ref_frame cur_frame : Frame)
        (matches_ref_cur : KeypointMatches),
        (removeOutliersMono inliers ref_frame cur_frame matches_ref_cur).1.keypoints
          = (ref_frame.keypoints.enum.filter
              (fun p => decide (p.1 ∉ outlierRefPositions matches_ref_cur inliers))).map
              Prod.snd
        ∧ (removeOutliersMono inliers ref_frame cur_frame matches_ref_cur).1.landmarks
          = (ref_frame.landmarks.enum.filter
              (fun p => decide (p.1 ∉ outlierRefPositions matches_ref_cur inliers))).map
              Prod.snd
        ∧ (removeOutliersMono inliers ref_frame cur_frame matches_ref_cur).2.1.keypoints
          = (cur_frame.keypoints.enum.filter
              (fun p => decide (p.1 ∉ outlierCurPositions matches_ref_cur inliers))).map
              Prod.snd
        ∧ (removeOutliersMono inliers ref_frame cur_frame matches_ref_cur).2.1.landmarks
          = (cur_frame.landmarks.enum.filter
              (fun p => decide (p.1 ∉ outlierCurPositions matches_ref_cur inliers))).map
              Prod.snd)
    ∧ (∀ (inliers : List ℕ) (ref_stereoFrame cur_stereoFrame : StereoFrame)
        (matches_ref_cur : KeypointMatches),
        ((removeOutliersStereo inliers ref_stereoFrame cur_stereoFrame
            matches_ref_cur).1.left_frame.keypoints
          = (ref_stereoFrame.left_frame.keypoints.enum.filter
              (fun p => decide (p.1 ∉ outlierRefPositions matches_ref_cur inliers))).map
              Prod.snd
        ∧ (removeOutliersStereo inliers ref_stereoFrame cur_stereoFrame
            matches_ref_cur).1.left_frame.landmarks
          = (ref_stereoFrame.left_frame.landmarks.enum.filter
              (fun p => decide (p.1 ∉ outlierRefPositions matches_ref_cur inliers))).map
              Prod.snd
        ∧ (removeOutliersStereo inliers ref_stereoFrame cur_stereoFrame
            matches_ref_cur).1.right_keypoints_status
          = (ref_stereoFrame.right_keypoints_status.enum.filter
              (fun p => decide (p.1 ∉ outlierRefPositions matches_ref_cur inliers))).map
              Prod.snd
        ∧ (removeOutliersStereo inliers ref_stereoFrame cur_stereoFrame
            matches_ref_cur).1.keypoints_depth
          = (ref_stereoFrame.keypoints_depth.enum.filter
              (fun p => decide (p.1 ∉ outlierRefPositions matches_ref_cur inliers))).map
              Prod.snd)
        ∧ ((removeOutliersStereo inliers ref_stereoFrame cur_stereoFrame
            matches_ref_cur).2.1.left_frame.keypoints
          = (cur_stereoFrame.left_frame.keypoints.enum.filter
              (fun p => decide (p.1 ∉ outlierCurPositions matches_ref_cur inliers))).map
              Prod.snd
        ∧ (removeOutliersStereo inliers ref_stereoFrame cur_stereoFrame
            matches_ref_cur).2.1.left_frame.landmarks
          = (cur_stereoFrame.left_frame.landmarks.enum.filter
              (fun p => decide (p.1 ∉ outlierCurPositions matches_ref_cur inliers))).map
              Prod.snd
        ∧ (removeOutliersStereo inliers ref_stereoFrame cur_stereoFrame
            matches_ref_cur).2.1.right_keypoints_status
          = (cur_stereoFrame.right_keypoints_status.enum.filter
              (fun p => decide (p.1 ∉ outlierCurPositions matches_ref_cur inliers))).map
              Prod.snd
        ∧ (removeOutliersStereo inliers ref_stereoFrame cur_stereoFrame
            matches_ref_cur).2.1.keypoints_depth
          = (cur_stereoFrame.keypoints_depth.enum.filter
              (fun p => decide (p.1 ∉ outlierCurPositions matches_ref_cur inliers))).map
              Prod.snd))
    ∧ (∀ (inliers : List ℕ) (matches_ref_cur : KeypointMatches),
        (keptMatches matches_ref_cur inliers).Sublist matches_ref_cur)
    ∧ (∀ (inliers : List ℕ) (ref_frame cur_frame : Frame)
        (matches_ref_cur : KeypointMatches) (p : KeypointMatch) (d : KeypointCV),
        (∀ q ∈ matches_ref_cur, q.1 < ref_frame.keypoints.length) →
        (matches_ref_cur.map Prod.fst).Nodup →
        p ∈ keptMatches matches_ref_cur inliers →
        ((removeOutliersMono inliers ref_frame cur_frame matches_ref_cur).1.keypoints).getD
            (newIndex (outlierRefPositions matches_ref_cur inliers) p.1) d
          = ref_frame.keypoints.getD p.1 d)
    ∧ (∀ (inliers : List ℕ) (ref_frame cur_frame : Frame)
        (matches_ref_cur : KeypointMatches) (p : KeypointMatch) (d : KeypointCV),
        (∀ q ∈ matches_ref_cur, q.2 < cur_frame.keypoints.length) →
        (matches_ref_cur.map Prod.snd).Nodup →
        p ∈ keptMatches matches_ref_cur inliers →
        ((removeOutliersMono inliers ref_frame cur_frame matches_ref_cur).2.1.keypoints).getD
            (newIndex (outlierCurPositions matches_ref_cur inliers) p.2) d
          = cur_frame.keypoints.getD p.2 d)
    ∧ (∀ (inliers : List ℕ) (ref_stereoFrame cur_stereoFrame : StereoFrame)
        (matches_ref_cur : KeypointMatches) (p : KeypointMatch) (d : KeypointCV),
        (∀ q ∈ matches_ref_cur,
            q.1 < ref_stereoFrame.left_frame.keypoints.length) →
        (matches_ref_cur.map Prod.fst).Nodup →
        p ∈ keptMatches matches_ref_cur inliers →
        ((removeOutliersStereo inliers ref_stereoFrame cur_stereoFrame
            matches_ref_cur).1.left_frame.keypoints).getD
            (newIndex (outlierRefPositions matches_ref_cur inliers) p.1) d
          = ref_stereoFrame.left_frame.keypoints.getD p.1 d)
    ∧ (∀ (inliers : List ℕ) (ref_stereoFrame cur_stereoFrame : StereoFrame)
        (matches_ref_cur : KeypointMatches) (p : KeypointMatch) (d : KeypointCV),
        (∀ q ∈ matches_ref_cur,
            q.2 < cur_stereoFrame.left_frame.keypoints.length) →
        (matches_ref_cur.map Prod.snd).Nodup →
        p ∈ keptMatches matches_ref_cur inliers →
        ((removeOutliersStereo inliers ref_stereoFrame cur_stereoFrame
            matches_ref_cur).2.1.left_frame.keypoints).getD
            (newIndex (outlierCurPositions matches_ref_cur inliers) p.2) d
          = cur_stereoFrame.left_frame.keypoints.getD p.2 d) := by
  refine ⟨?_, ?_, ?_, ?_, ?_, ?_, ?_, ?_, ?_⟩
  · intro ref cur ms
    have hbr : outlierRefPositions ms (List.range ms.length) = [] := by
      rw [outlierRefPositions, findOutliers_full]
      rfl
    have hbc : outlierCurPositions ms (List.range ms.length) = [] := by
      rw [outlierCurPositions, findOutliers_full]
      rfl
    have hmap : ∀ q ∈ ms,
        ((newIndex ([] : List ℕ) q.1, newIndex ([] : List ℕ) q.2) : KeypointMatch)
          = q := by
      intro q _
      rw [newIndex_nil, newIndex_nil]
    rw [removeOutliersMono, hbr, hbc, dropPositions_nil, dropPositions_nil,
      dropPositions_nil, dropPositions_nil, keptMatches_full,
      List.map_congr_left hmap, List.map_id']
  · intro rsf csf ms
    have hbr : outlierRefPositions ms (List.range ms.length) = [] := by
      rw [outlierRefPositions, findOutliers_full]
      rfl
    have hbc : outlierCurPositions ms (List.range ms.length) = [] := by
      rw [outlierCurPositions, findOutliers_full]
      rfl
    have hmap : ∀ q ∈ ms,
        ((newIndex ([] : List ℕ) q.1, newIndex ([] : List ℕ) q.2) : KeypointMatch)
          = q := by
      intro q _
      rw [newIndex_nil, newIndex_nil]
    have hcomp : ∀ sf : StereoFrame, compactStereoFrame [] sf = sf := by
      intro sf
      rw [compactStereoFrame, dropPositions_nil, dropPositions_nil,
        dropPositions_nil, dropPositions_nil]
    rw [removeOutliersStereo, hbr, hbc, hcomp, hcomp, keptMatches_full,
      List.map_congr_left hmap, List.map_id']
  · intro inliers ref cur ms
    exact ⟨dropPositions_eq_filter _ _, dropPositions_eq_filter _ _,
      dropPositions_eq_filter _ _, dropPositions_eq_filter _ _⟩
  · intro inliers rsf csf ms
    exact ⟨⟨dropPositions_eq_filter _ _, dropPositions_eq_filter _ _,
      dropPositions_eq_filter _ _, dropPositions_eq_filter _ _⟩,
      dropPositions_eq_filter _ _, dropPositions_eq_filter _ _,
      dropPositions_eq_filter _ _, dropPositions_eq_filter _ _⟩
  · intro inliers ms
    have h := (List.filter_sublist
      (p := fun p => decide (p.1 ∉ findOutliers ms inliers)) ms.enum).map Prod.snd
    rw [List.enum_map_snd] at h
    exact h
  · intro inliers ref cur ms p d hrange hnd hp
    obtain ⟨k, hk, hget, -⟩ := keptMatches_mem hp
    obtain ⟨hlt, hpk⟩ := List.getElem?_eq_some_iff.1 hget
    have hpm : p ∈ ms := hpk ▸ List.getElem_mem hlt
    exact dropPositions_getD _ _ _ _ (hrange p hpm)
      (kept_pos_not_outlier Prod.fst hnd hp)
  · intro inliers ref cur ms p d hrange hnd hp
    obtain ⟨k, hk, hget, -⟩ := keptMatches_mem hp
    obtain ⟨hlt, hpk⟩ := List.getElem?_eq_some_iff.1 hget
    have hpm : p ∈ ms := hpk ▸ List.getElem_mem hlt
    exact dropPositions_getD _ _ _ _ (hrange p hpm)
      (kept_pos_not_outlier Prod.snd hnd hp)
  · intro inliers rsf csf ms p d hrange hnd hp
    obtain ⟨k, hk, hget, -⟩ := keptMatches_mem hp
    obtain ⟨hlt, hpk⟩ := List.getElem?_eq_some_iff.1 hget
    have hpm : p ∈ ms := hpk ▸ List.getElem_mem hlt
    exact dropPositions_getD _ _ _ _ (hrange p hpm)
      (kept_pos_not_outlier Prod.fst hnd hp)
  · intro inliers rsf csf ms p d hrange hnd hp
    obtain ⟨k, hk, hget, -⟩ := keptMatches_mem hp
    obtain ⟨hlt, hpk⟩ := List.getElem?_eq_some_iff.1 hget
    have hpm : p ∈ ms := hpk ▸ List.getElem_mem hlt
    exact dropPositions_getD _ _ _ _ (hrange p hpm)
      (kept_pos_not_outlier Prod.snd hnd hp)

/-- C7 witness: on matches `[(0,0),(1,1)]` with inlier set `[0]`, the kept
match `(0,0)` addresses the same keypoint before and after compaction on the
reference side, on the current side, and in the stereo variant. -/
theorem removeOutliers_compaction_witness :
    (∀ q ∈ ([(0, 0), (1, 1)] : KeypointMatches),
        q.1 < (Frame.mk [⟨1, 1⟩, ⟨2, 2⟩] [10, 11]).keypoints.length)
    ∧ ((removeOutliersMono [0] ⟨[⟨1, 1⟩, ⟨2, 2⟩], [10, 11]⟩
          ⟨[⟨1, 1⟩, ⟨2, 2⟩], [10, 11]⟩ [(0, 0), (1, 1)]).1.keypoints).getD
          (newIndex (outlierRefPositions [(0, 0), (1, 1)] [0]) 0) ⟨0, 0⟩
        = (Frame.mk [⟨1, 1⟩, ⟨2, 2⟩] [10, 11]).keypoints.getD 0 ⟨0, 0⟩
    ∧ ((removeOutliersMono [0] ⟨[⟨1, 1⟩, ⟨2, 2⟩], [10, 11]⟩
          ⟨[⟨1, 1⟩, ⟨2, 2⟩], [10, 11]⟩ [(0, 0), (1, 1)]).2.1.keypoints).getD
          (newIndex (outlierCurPositions [(0, 0), (1, 1)] [0]) 0) ⟨0, 0⟩
        = (Frame.mk [⟨1, 1⟩, ⟨2, 2⟩] [10, 11]).keypoints.getD 0 ⟨0, 0⟩
    ∧ ((removeOutliersStereo [0]
          ⟨⟨[⟨1, 1⟩, ⟨2, 2⟩], [10, 11]⟩, ⟨[], []⟩, [.VALID, .VALID], [1, 1]⟩
          ⟨⟨[⟨1, 1⟩, ⟨2, 2⟩], [10, 11]⟩, ⟨[], []⟩, [.VALID, .VALID], [1, 1]⟩
          [(0, 0), (1, 1)]).1.left_frame.keypoints).getD
          (newIndex (outlierRefPositions [(0, 0), (1, 1)] [0]) 0) ⟨0, 0⟩
        = (Frame.mk [⟨1, 1⟩, ⟨2, 2⟩] [10, 11]).keypoints.getD 0 ⟨0, 0⟩ :=
  ⟨by decide,
   removeOutliers_compaction.2.2.2.2.2.1 [0] ⟨[⟨1, 1⟩, ⟨2, 2⟩], [10, 11]⟩
     ⟨[⟨1, 1⟩, ⟨2, 2⟩], [10, 11]⟩ [(0, 0), (1, 1)] (0, 0) ⟨0, 0⟩
     (by decide) (by decide) (by decide),
   removeOutliers_compaction.2.2.2.2.2.2.1 [0] ⟨[⟨1, 1⟩, ⟨2, 2⟩], [10, 11]⟩
     ⟨[⟨1, 1⟩, ⟨2, 2⟩], [10, 11]⟩ [(0, 0), (1, 1)] (0, 0) ⟨0, 0⟩
     (by decide) (by decide) (by decide),
   removeOutliers_compaction.2.2.2.2.2.2.2.1 [0]
     ⟨⟨[⟨1, 1⟩, ⟨2, 2⟩], [10, 11]⟩, ⟨[], []⟩, [.VALID, .VALID], [1, 1]⟩
     ⟨⟨[⟨1, 1⟩, ⟨2, 2⟩], [10, 11]⟩, ⟨[], []⟩, [.VALID, .VALID], [1, 1]⟩
     [(0, 0), (1, 1)] (0, 0) ⟨0, 0⟩
     (by decide) (by decide) (by decide)⟩

end VIO
